import Mathlib

/-!
Verification of the request/response conversion layer of the Azure OpenAI
plugin for the Genkit framework (`azopenai/openai.go`).

The Go code is shallowly embedded: pure conversion functions become Lean
functions, the provider client is passed as an explicit function or as the
list of read results its stream would deliver, and the streaming callback's
side effect is captured by returning the trace of chunks it was invoked
with.  Fallible Go functions (returning `(T, error)`) become `Except`.
Float32 configuration values and embedding vectors are never inspected by
the adapter, only passed through, so they are modelled by opaque tokens.
-/

deriving instance DecidableEq for Except

namespace AzPlugin

/-- Kinds of a Genkit `ai.Part` (`PartText`, `PartMedia`, `PartData`,
`PartToolRequest`, `PartToolResponse`). -/
inductive PartKind
  | text
  | media
  | data
  | toolRequest
  | toolResponse
  deriving DecidableEq

/-- A Genkit `ai.Part`: a tagged content part.  Only the `kind` tag and the
`Text` field are consumed by this adapter (media parts store their URL in
`Text`). -/
structure Part where
  kind : PartKind
  text : String
  deriving DecidableEq

/-- Go `(p *ai.Part) IsText()`: true iff the part's kind is `PartText`. -/
def Part.IsText (p : Part) : Bool :=
  p.kind == PartKind.text

/-- Go `ai.NewTextPart`: a text-kind part holding the given string. -/
def NewTextPart (text : String) : Part :=
  { kind := PartKind.text, text := text }

/-- Genkit role constant `ai.RoleSystem`. -/
def RoleSystem : String := "system"

/-- Genkit role constant `ai.RoleUser`. -/
def RoleUser : String := "user"

/-- Genkit role constant `ai.RoleModel`. -/
def RoleModel : String := "model"

/-- Genkit role constant `ai.RoleTool`. -/
def RoleTool : String := "tool"

/-- A Genkit `ai.Message`: a role plus an ordered list of parts. -/
structure Message where
  role : String
  content : List Part
  deriving DecidableEq

/-- Genkit finish-reason constant `ai.FinishReasonStop`. -/
def FinishReasonStop : String := "stop"

/-- Genkit finish-reason constant `ai.FinishReasonLength`. -/
def FinishReasonLength : String := "length"

/-- Genkit finish-reason constant `ai.FinishReasonBlocked`. -/
def FinishReasonBlocked : String := "blocked"

/-- Genkit finish-reason constant `ai.FinishReasonOther`. -/
def FinishReasonOther : String := "other"

/-- Azure SDK constant `azopenai.CompletionsFinishReasonStopped`. -/
def CompletionsFinishReasonStopped : String := "stop"

/-- Azure SDK constant `azopenai.CompletionsFinishReasonTokenLimitReached`. -/
def CompletionsFinishReasonTokenLimitReached : String := "length"

/-- Azure SDK constant `azopenai.CompletionsFinishReasonContentFiltered`. -/
def CompletionsFinishReasonContentFiltered : String := "content_filter"

/-- Azure SDK constant `azopenai.CompletionsFinishReasonToolCalls`. -/
def CompletionsFinishReasonToolCalls : String := "tool_calls"

/-- Azure SDK constant `azopenai.CompletionsFinishReasonFunctionCall`
(legacy single-function finish reason). -/
def CompletionsFinishReasonFunctionCall : String := "function_call"

/-- The typed errors this conversion layer can produce.  Each constructor
corresponds to one error-creation site in `openai.go`; the `cause` argument
carries the wrapped underlying error where the Go code wraps one with
`%w`. -/
inductive ConvError
  /-- `fmt.Errorf("unsupported role: %s", msg.Role)` in `convertMessage`. -/
  | unsupportedRole (role : String)
  /-- `errors.New("deployment name is required")` in
  `convertToAzureOpenAIRequest`. -/
  | missingTargetName
  /-- `fmt.Errorf("failed to marshal tool parameters: %w", err)` in
  `convertTools`. -/
  | schemaEncodingFailed (cause : String)
  /-- `fmt.Errorf("failed to get chat completions stream: %w", err)` in
  `handleStreamingRequest`. -/
  | streamOpenFailed (cause : String)
  /-- `fmt.Errorf("failed to read chat completion: %w", err)` in
  `handleStreamingRequest`. -/
  | streamReadFailed (cause : String)
  /-- `fmt.Errorf("streaming callback error: %w", err)` in
  `handleStreamingRequest`. -/
  | streamCallbackFailed (cause : String)
  /-- `fmt.Errorf("failed to get chat completions: %w", err)` in
  `handleNonStreamingRequest`. -/
  | providerCallFailed (cause : String)
  /-- `errors.New("no choices returned from Azure OpenAI")` in
  `handleNonStreamingRequest`. -/
  | emptyProviderResponse
  /-- `fmt.Errorf("no text content found in input documents")` in
  `defineEmbedder`. -/
  | noEmbeddableContent
  /-- `fmt.Errorf("failed to get embeddings from Azure OpenAI: %w", err)` in
  `defineEmbedder`. -/
  | embeddingsCallFailed (cause : String)
  deriving DecidableEq

/-- Go `extractTextContent`: collect the `Text` of every text-kind part, in
order, and join them with no separator (`strings.Join(textParts, "")`). -/
def extractTextContent (parts : List Part) : String :=
  String.join ((parts.filter Part.IsText).map Part.text)

/-- The four provider chat-message variants
(`azopenai.ChatRequestMessageClassification`).  Each variant wraps the
content produced by `New...MessageContent`; the tool variant additionally
carries `ToolCallID`. -/
inductive ChatRequestMessage
  | system (content : String)
  | user (content : String)
  | assistant (content : String)
  | tool (content : String) (toolCallID : String)
  deriving DecidableEq

/-- Go `convertMessage`: extract the text content, then switch on the role;
the four recognized roles map to the four provider variants (the tool
variant gets the hard-coded placeholder id `"tool_call_id"`), any other
role is an error. -/
def convertMessage (msg : Message) : Except ConvError ChatRequestMessage :=
  let content := extractTextContent msg.content
  if msg.role = RoleSystem then
    Except.ok (ChatRequestMessage.system content)
  else if msg.role = RoleUser then
    Except.ok (ChatRequestMessage.user content)
  else if msg.role = RoleModel then
    Except.ok (ChatRequestMessage.assistant content)
  else if msg.role = RoleTool then
    Except.ok (ChatRequestMessage.tool content "tool_call_id")
  else
    Except.error (ConvError.unsupportedRole msg.role)

/-- A tool's input schema is an arbitrary Go value (`map[string]any` in
`ai.ToolDefinition`); the only operation the adapter performs on it is
`json.Marshal`, which either yields encoded bytes or fails (e.g. for a
value containing a channel or function).  We model a schema document by
that observable outcome. -/
inductive SchemaDoc
  | encodable (bytes : String)
  | unencodable (err : String)
  deriving DecidableEq

/-- `json.Marshal` applied to a schema document, as modelled by
`SchemaDoc`. -/
def jsonMarshal : SchemaDoc → Except String String
  | SchemaDoc.encodable b => Except.ok b
  | SchemaDoc.unencodable e => Except.error e

/-- Genkit `ai.ToolDefinition` (the fields this adapter reads). -/
structure ToolDefinition where
  name : String
  description : String
  inputSchema : SchemaDoc
  deriving DecidableEq

/-- `azopenai.ChatCompletionsFunctionToolDefinitionFunction`. -/
structure FunctionToolFunction where
  name : String
  description : String
  parameters : String
  deriving DecidableEq

/-- `azopenai.ChatCompletionsFunctionToolDefinition` (as the
`ChatCompletionsToolDefinitionClassification` the adapter builds). -/
structure FunctionToolDefinition where
  type : String
  function : FunctionToolFunction
  deriving DecidableEq

/-- Go `convertTools`: for each tool in order, marshal its input schema
(aborting with the wrapped marshal error on the first failure) and build a
`"function"`-typed provider tool definition carrying the name, description
and encoded parameters. -/
def convertTools : List ToolDefinition → Except ConvError (List FunctionToolDefinition)
  | [] => Except.ok []
  | tool :: rest =>
    match jsonMarshal tool.inputSchema with
    | Except.error e => Except.error (ConvError.schemaEncodingFailed e)
    | Except.ok bytes =>
      match convertTools rest with
      | Except.error e => Except.error e
      | Except.ok others =>
        Except.ok
          ({ type := "function",
             function := { name := tool.name, description := tool.description,
                           parameters := bytes } } :: others)

/-- Opaque stand-in for a `float32` configuration value: the adapter never
inspects or computes with these, it only copies the (possibly absent)
pointer through, so a float is modelled by an opaque token. -/
structure F32 where
  bits : Nat
  deriving DecidableEq

/-- Go `OpenAIConfig`: the generation configuration.  Nil pointers become
`none`, the nil map becomes `[]`, and the zero string stays `""`. -/
structure OpenAIConfig where
  deploymentName : String := ""
  maxTokens : Option Int := none
  temperature : Option F32 := none
  topP : Option F32 := none
  presencePenalty : Option F32 := none
  frequencyPenalty : Option F32 := none
  logitBias : List (String × Option Int) := []
  user : String := ""
  seed : Option Int := none
  deriving DecidableEq

/-- `azopenai.ChatCompletionsOptions` (the fields the adapter sets); the
defaults are Go's zero values. -/
structure ChatCompletionsOptions where
  messages : List ChatRequestMessage := []
  deploymentName : Option String := none
  maxTokens : Option Int := none
  temperature : Option F32 := none
  topP : Option F32 := none
  presencePenalty : Option F32 := none
  frequencyPenalty : Option F32 := none
  logitBias : List (String × Option Int) := []
  user : Option String := none
  seed : Option Int := none
  tools : List FunctionToolDefinition := []
  deriving DecidableEq

/-- Genkit `ai.ModelRequest` (the fields `convertToAzureOpenAIRequest`
reads; the config is passed separately, as in the Go signature). -/
structure ModelRequest where
  messages : List Message
  tools : List ToolDefinition
  deriving DecidableEq

/-- The message-conversion loop at the top of
`convertToAzureOpenAIRequest`: convert every message in order, aborting on
the first failure. -/
def convertMessages : List Message → Except ConvError (List ChatRequestMessage)
  | [] => Except.ok []
  | msg :: rest =>
    match convertMessage msg with
    | Except.error e => Except.error e
    | Except.ok azMsg =>
      match convertMessages rest with
      | Except.error e => Except.error e
      | Except.ok others => Except.ok (azMsg :: others)

/-- Go `convertToAzureOpenAIRequest`: convert all messages (first failure
aborts), require a non-empty deployment name, copy each optional scalar
from the config only when present, and convert the tools when the request
has any. -/
def convertToAzureOpenAIRequest (mr : ModelRequest) (cfg : OpenAIConfig) :
    Except ConvError ChatCompletionsOptions :=
  match convertMessages mr.messages with
  | Except.error e => Except.error e
  | Except.ok messages =>
    if cfg.deploymentName = "" then
      Except.error ConvError.missingTargetName
    else
      let options : ChatCompletionsOptions :=
        { messages := messages
          deploymentName := some cfg.deploymentName
          maxTokens := cfg.maxTokens
          temperature := cfg.temperature
          topP := cfg.topP
          presencePenalty := cfg.presencePenalty
          frequencyPenalty := cfg.frequencyPenalty
          logitBias := if cfg.logitBias.length > 0 then cfg.logitBias else []
          user := if cfg.user = "" then none else some cfg.user
          seed := cfg.seed
          tools := [] }
      if mr.tools.length > 0 then
        match convertTools mr.tools with
        | Except.error e => Except.error e
        | Except.ok tools => Except.ok { options with tools := tools }
      else
        Except.ok options

/-- Go `convertFinishReason`: map the Azure finish reason onto the Genkit
one; the four matched constants map per the table, everything else
(including the legacy `function_call` reason) falls to the default arm
`FinishReasonOther`. -/
def convertFinishReason (reason : String) : String :=
  if reason = CompletionsFinishReasonStopped then FinishReasonStop
  else if reason = CompletionsFinishReasonTokenLimitReached then FinishReasonLength
  else if reason = CompletionsFinishReasonContentFiltered then FinishReasonBlocked
  else if reason = CompletionsFinishReasonToolCalls then FinishReasonStop
  else FinishReasonOther

/-- Genkit `ai.ModelResponseChunk` (the fields the adapter sets): one
streaming callback payload. -/
structure ModelResponseChunk where
  content : List Part
  role : String
  deriving DecidableEq

/-- Genkit `ai.ModelResponse` (the fields the adapter sets). -/
structure ModelResponse where
  message : Message
  finishReason : String
  deriving DecidableEq

/-- The delta of one streamed choice
(`azopenai.ChatChoiceDelta.Content`). -/
structure ChoiceDelta where
  content : Option String := none
  deriving DecidableEq

/-- One choice inside a streamed chunk: an optional content delta and an
optional terminal finish reason. -/
structure StreamChoice where
  delta : ChoiceDelta := {}
  finishReason : Option String := none
  deriving DecidableEq

/-- One event delivered by `ChatCompletionsStream.Read`. -/
structure StreamEvent where
  choices : List StreamChoice
  deriving DecidableEq

/-- One outcome of `ChatCompletionsStream.Read`: either an event or a read
error; the end of the list stands for `io.EOF`. -/
abbrev ReadItem := Except String StreamEvent

/-- The caller-supplied streaming callback `ai.ModelStreamCallback`,
modelled by its observable outcome on each chunk: `none` means the callback
returned nil, `some e` means it returned the error `e`. -/
abbrev Callback := ModelResponseChunk → Option String

/-- The inner per-choice loop of `handleStreamingRequest`: for each choice,
if the delta carries content, append it to the accumulation buffer and
invoke the callback with a single-text-part chunk (aborting with the
wrapped callback error if it fails); then, if the choice carries a finish
reason, record its conversion (last write wins).  Returns the updated
buffer, recorded finish reason, and the trace of callback invocations. -/
def processChoices (cb : Callback) :
    List StreamChoice → String → String → List ModelResponseChunk →
    Except ConvError (String × String × List ModelResponseChunk)
  | [], buf, fr, trace => Except.ok (buf, fr, trace)
  | choice :: rest, buf, fr, trace =>
    match choice.delta.content with
    | some content =>
      let chunk : ModelResponseChunk :=
        { content := [NewTextPart content], role := RoleModel }
      match cb chunk with
      | some e => Except.error (ConvError.streamCallbackFailed e)
      | none =>
        let fr' :=
          match choice.finishReason with
          | some r => convertFinishReason r
          | none => fr
        processChoices cb rest (buf ++ content) fr' (trace ++ [chunk])
    | none =>
      let fr' :=
        match choice.finishReason with
        | some r => convertFinishReason r
        | none => fr
      processChoices cb rest buf fr' trace

/-- The read loop of `handleStreamingRequest`: read items until `io.EOF`
(the end of the list), failing on a read error with the wrapped error, and
process each event's choices; at EOF return the callback trace together
with the final response holding the whole accumulated buffer as a single
text part and the last recorded finish reason. -/
def streamLoop (cb : Callback) :
    List ReadItem → String → String → List ModelResponseChunk →
    Except ConvError (List ModelResponseChunk × ModelResponse)
  | [], buf, fr, trace =>
    Except.ok (trace,
      { message := { content := [NewTextPart buf], role := RoleModel },
        finishReason := fr })
  | Except.error e :: _, _, _, _ =>
    Except.error (ConvError.streamReadFailed e)
  | Except.ok ev :: rest, buf, fr, trace =>
    match processChoices cb ev.choices buf fr trace with
    | Except.error e => Except.error e
    | Except.ok (buf', fr', trace') => streamLoop cb rest buf' fr' trace'

/-- Go `handleStreamingRequest`: open the stream (failing with the wrapped
error if the open call fails), then run the read loop with an empty buffer,
the zero-value finish reason `""`, and an empty callback trace.  The stream
opened by `GetChatCompletionsStream` is modelled by the list of results its
reads would deliver. -/
def handleStreamingRequest (streamResult : Except String (List ReadItem))
    (cb : Callback) : Except ConvError (List ModelResponseChunk × ModelResponse) :=
  match streamResult with
  | Except.error e => Except.error (ConvError.streamOpenFailed e)
  | Except.ok items => streamLoop cb items "" "" []

/-- The message of one non-streaming choice
(`azopenai.ChatResponseMessage.Content`). -/
structure ChatMessageOut where
  content : Option String := none
  deriving DecidableEq

/-- One non-streaming choice (`azopenai.ChatChoice`). -/
structure ChatChoice where
  message : ChatMessageOut := {}
  finishReason : Option String := none
  deriving DecidableEq

/-- The non-streaming provider response (`azopenai.ChatCompletions`). -/
structure ChatCompletions where
  choices : List ChatChoice
  deriving DecidableEq

/-- Go `handleNonStreamingRequest`: the provider call
`client.GetChatCompletions` is modelled by its result.  A failed call is
wrapped; zero choices is an error; otherwise the first choice's content
(defaulting to `""` when nil) becomes the single text part of the response
and its finish reason is converted, defaulting to `FinishReasonStop` when
the provider sent none. -/
def handleNonStreamingRequest (callResult : Except String ChatCompletions) :
    Except ConvError ModelResponse :=
  match callResult with
  | Except.error e => Except.error (ConvError.providerCallFailed e)
  | Except.ok resp =>
    match resp.choices with
    | [] => Except.error ConvError.emptyProviderResponse
    | choice :: _ =>
      let content :=
        match choice.message.content with
        | some c => c
        | none => ""
      let finishReason :=
        match choice.finishReason with
        | some r => convertFinishReason r
        | none => FinishReasonStop
      Except.ok
        { message := { content := [NewTextPart content], role := RoleModel },
          finishReason := finishReason }

/-- A Genkit `ai.Document`: an ordered list of parts. -/
structure Document where
  content : List Part
  deriving DecidableEq

/-- An embedding vector (`[]float32`), passed through untouched and hence
modelled by opaque tokens. -/
abbrev Vec32 := List F32

/-- A Genkit `ai.Embedding`. -/
structure Embedding where
  embedding : Vec32
  deriving DecidableEq

/-- The per-document text selection in `defineEmbedder`'s loop: every part
whose `Text` field is non-empty contributes (note: this tests `Text != ""`,
not the part's kind, unlike `extractTextContent`). -/
def docTextParts (parts : List Part) : List String :=
  (parts.filter fun p => p.text ≠ "").map Part.text

/-- The input-building loop of `defineEmbedder`: each document whose
selected text list is non-empty contributes those texts joined with a
single space (`strings.Join(textParts, " ")`); documents yielding no text
are skipped. -/
def embedInput (docs : List Document) : List String :=
  docs.filterMap fun doc =>
    let textParts := docTextParts doc.content
    if textParts.length > 0 then some (String.intercalate " " textParts) else none

/-- The embedding request handler registered by Go `defineEmbedder`: build
the input strings, fail before any provider call when none are embeddable,
otherwise call the provider (modelled by a function from the input list to
its result), wrapping a failed call, and wrap each returned vector into an
`Embedding` in provider-returned order. -/
def defineEmbedderFn (provider : List String → Except String (List Vec32))
    (docs : List Document) : Except ConvError (List Embedding) :=
  let input := embedInput docs
  if input.length = 0 then
    Except.error ConvError.noEmbeddableContent
  else
    match provider input with
    | Except.error e => Except.error (ConvError.embeddingsCallFailed e)
    | Except.ok data => Except.ok (data.map fun v => { embedding := v })

/-- A message role the converter recognizes. -/
def roleSupported (m : Message) : Prop :=
  m.role = RoleSystem ∨ m.role = RoleUser ∨ m.role = RoleModel ∨ m.role = RoleTool

instance (m : Message) : Decidable (roleSupported m) := by
  unfold roleSupported
  infer_instance

/-- Joining strings distributes over list append. -/
theorem stringJoin_append (l1 l2 : List String) :
    String.join (l1 ++ l2) = String.join l1 ++ String.join l2 := by
  apply String.ext
  simp

/-- A message with a supported role always converts successfully. -/
theorem convertMessage_ok_of_supported (m : Message) (h : roleSupported m) :
    ∃ a, convertMessage m = Except.ok a := by
  obtain ⟨role, content⟩ := m
  rcases h with h | h | h | h <;> simp only at h <;> subst h <;> exact ⟨_, rfl⟩

/-- The message-conversion loop succeeds when every role is supported. -/
theorem convertMessages_ok (ms : List Message) (h : ∀ m ∈ ms, roleSupported m) :
    ∃ l, convertMessages ms = Except.ok l := by
  induction ms with
  | nil => exact ⟨[], rfl⟩
  | cons m rest ih =>
    obtain ⟨a, ha⟩ := convertMessage_ok_of_supported m (h m (by simp))
    obtain ⟨l, hl⟩ := ih fun x hx => h x (by simp [hx])
    exact ⟨a :: l, by simp [convertMessages, ha, hl]⟩

/-- Every error `convertTools` produces is a `schemaEncodingFailed`. -/
theorem convertTools_error_shape (ts : List ToolDefinition) :
    ∀ e, convertTools ts = Except.error e →
      ∃ c, e = ConvError.schemaEncodingFailed c := by
  induction ts with
  | nil => intro e h; simp [convertTools] at h
  | cons t rest ih =>
    intro e h
    simp only [convertTools] at h
    cases hm : jsonMarshal t.inputSchema with
    | error c =>
      rw [hm] at h
      injection h with h2
      exact ⟨c, h2.symm⟩
    | ok bytes =>
      rw [hm] at h
      cases hr : convertTools rest with
      | error e2 =>
        rw [hr] at h
        injection h with h2
        obtain ⟨c, hc⟩ := ih e2 hr
        exact ⟨c, h2 ▸ hc⟩
      | ok others =>
        rw [hr] at h
        exact Except.noConfusion h

/-- C9: the Content Extractor is total (it is a Lean function), yields the
empty string on the empty part list, is a homomorphism for list append, and
silently skips non-text parts. -/
theorem extractTextContent_morphism :
    (∀ parts1 parts2 : List Part,
        extractTextContent (parts1 ++ parts2) =
          extractTextContent parts1 ++ extractTextContent parts2) ∧
    extractTextContent ([] : List Part) = "" ∧
    (∀ (p : Part) (parts : List Part), p.IsText = false →
        extractTextContent (p :: parts) = extractTextContent parts) := by
  refine ⟨fun parts1 parts2 => ?_, rfl, fun p parts hp => ?_⟩
  · unfold extractTextContent
    rw [List.filter_append, List.map_append, stringJoin_append]
  · simp [extractTextContent, hp]

/-- C9 witness: skipping a concrete non-text part. -/
theorem extractTextContent_morphism_witness :
    extractTextContent
        [{ kind := PartKind.media, text := "u" }, NewTextPart "a"] =
      extractTextContent [NewTextPart "a"] :=
  extractTextContent_morphism.2.2 { kind := PartKind.media, text := "u" }
    [NewTextPart "a"] rfl

/-- C2: each of the four supported roles produces the correspondingly
tagged provider message whose content is the no-separator concatenation of
the message's text parts, the tool variant carrying the fixed placeholder
id; any other role fails with the unsupported-role error. -/
theorem convertMessage_role_cases (msg : Message) :
    (msg.role = RoleSystem →
        convertMessage msg = Except.ok (ChatRequestMessage.system
          (String.join ((msg.content.filter Part.IsText).map Part.text)))) ∧
    (msg.role = RoleUser →
        convertMessage msg = Except.ok (ChatRequestMessage.user
          (String.join ((msg.content.filter Part.IsText).map Part.text)))) ∧
    (msg.role = RoleModel →
        convertMessage msg = Except.ok (ChatRequestMessage.assistant
          (String.join ((msg.content.filter Part.IsText).map Part.text)))) ∧
    (msg.role = RoleTool →
        convertMessage msg = Except.ok (ChatRequestMessage.tool
          (String.join ((msg.content.filter Part.IsText).map Part.text))
          "tool_call_id")) ∧
    (¬ roleSupported msg →
        convertMessage msg = Except.error (ConvError.unsupportedRole msg.role)) := by
  obtain ⟨role, content⟩ := msg
  refine ⟨?_, ?_, ?_, ?_, ?_⟩ <;> intro h
  · simp only at h; subst h; rfl
  · simp only at h; subst h; rfl
  · simp only at h; subst h; rfl
  · simp only at h; subst h; rfl
  · have h1 : ¬ role = RoleSystem := fun hh => h (Or.inl hh)
    have h2 : ¬ role = RoleUser := fun hh => h (Or.inr (Or.inl hh))
    have h3 : ¬ role = RoleModel := fun hh => h (Or.inr (Or.inr (Or.inl hh)))
    have h4 : ¬ role = RoleTool := fun hh => h (Or.inr (Or.inr (Or.inr hh)))
    simp [convertMessage, h1, h2, h3, h4]

/-- C2 witness: a concrete system message and a concrete unsupported
role. -/
theorem convertMessage_role_cases_witness :
    convertMessage { role := "system", content := [NewTextPart "a", NewTextPart "b"] } =
        Except.ok (ChatRequestMessage.system "ab") ∧
    convertMessage { role := "banana", content := [] } =
        Except.error (ConvError.unsupportedRole "banana") := by
  constructor
  · have h := (convertMessage_role_cases
        { role := "system", content := [NewTextPart "a", NewTextPart "b"] }).1 rfl
    rw [h]
    rfl
  · exact (convertMessage_role_cases { role := "banana", content := [] }).2.2.2.2
      (by decide)

/-- C3: the finish-reason mapper is a total function realizing the table:
stopped maps to stop, token-limit-reached to length, content-filtered to
blocked, tool-calls to stop, the legacy function-call reason to other, and
every unrecognized reason to other. -/
theorem convertFinishReason_table :
    convertFinishReason CompletionsFinishReasonStopped = FinishReasonStop ∧
    convertFinishReason CompletionsFinishReasonTokenLimitReached = FinishReasonLength ∧
    convertFinishReason CompletionsFinishReasonContentFiltered = FinishReasonBlocked ∧
    convertFinishReason CompletionsFinishReasonToolCalls = FinishReasonStop ∧
    convertFinishReason CompletionsFinishReasonFunctionCall = FinishReasonOther ∧
    (∀ reason : String,
        reason ≠ CompletionsFinishReasonStopped →
        reason ≠ CompletionsFinishReasonTokenLimitReached →
        reason ≠ CompletionsFinishReasonContentFiltered →
        reason ≠ CompletionsFinishReasonToolCalls →
        convertFinishReason reason = FinishReasonOther) := by
  refine ⟨rfl, rfl, rfl, rfl, rfl, fun reason h1 h2 h3 h4 => ?_⟩
  simp [convertFinishReason, h1, h2, h3, h4]

/-- C3 witness: a concrete unrecognized reason degrades to other. -/
theorem convertFinishReason_table_witness :
    convertFinishReason "some_future_reason" = FinishReasonOther :=
  convertFinishReason_table.2.2.2.2.2 "some_future_reason"
    (by decide) (by decide) (by decide) (by decide)

/-- C4: against a stream delivering text deltas "Hel" then "lo" and a
terminal stopped chunk, the streaming dispatcher invokes the callback
exactly twice, with single-text-part chunks "Hel" then "lo" in order, and
returns a final response whose single text part is "Hello" with finish
reason stop. -/
theorem handleStreamingRequest_hello_scenario :
    handleStreamingRequest
        (Except.ok
          [Except.ok { choices := [{ delta := { content := some "Hel" } }] },
           Except.ok { choices := [{ delta := { content := some "lo" } }] },
           Except.ok { choices := [{ delta := {},
                                     finishReason := some CompletionsFinishReasonStopped }] }])
        (fun _ => none) =
      Except.ok
        ([{ content := [NewTextPart "Hel"], role := RoleModel },
          { content := [NewTextPart "lo"], role := RoleModel }],
         { message := { content := [NewTextPart "Hello"], role := RoleModel },
           finishReason := FinishReasonStop }) := by
  decide

/-- C10: the embedding path selects every part whose text field is
non-empty regardless of its kind, so a media part carrying its URL in the
text field is sent to the provider (space-joined), while the chat path's
extractor drops the same part. -/
theorem embedder_text_selection_vs_chat :
    docTextParts [{ kind := PartKind.media, text := "http://img" }] = ["http://img"] ∧
    embedInput
        [{ content := [NewTextPart "a",
                       { kind := PartKind.media, text := "http://img" }] }] =
      ["a http://img"] ∧
    extractTextContent
        [NewTextPart "a", { kind := PartKind.media, text := "http://img" }] = "a" := by
  decide

/-- C1 counterexample: with an unsupported message role and an empty
deployment name, the request builder fails with the unsupported-role error
rather than the missing-target-name error, so the missing-target outcome is
not independent of the messages' roles. -/
theorem convertToAzureOpenAIRequest_missingTarget_counterexample :
    (({ deploymentName := "" } : OpenAIConfig).deploymentName = "") ∧
    convertToAzureOpenAIRequest
        { messages := [{ role := "weird", content := [] }], tools := [] }
        { deploymentName := "" } =
      Except.error (ConvError.unsupportedRole "weird") ∧
    convertToAzureOpenAIRequest
        { messages := [{ role := "weird", content := [] }], tools := [] }
        { deploymentName := "" } ≠
      Except.error ConvError.missingTargetName := by
  refine ⟨rfl, by decide, by decide⟩

/-- C1 (amended): provided every message's role is supported, the request
builder fails with the missing-target-name error iff the deployment name is
empty, independently of the remaining fields (tools included). -/
theorem convertToAzureOpenAIRequest_missingTarget_iff
    (mr : ModelRequest) (cfg : OpenAIConfig)
    (hroles : ∀ m ∈ mr.messages, roleSupported m) :
    convertToAzureOpenAIRequest mr cfg = Except.error ConvError.missingTargetName ↔
      cfg.deploymentName = "" := by
  obtain ⟨msgs, hmsgs⟩ := convertMessages_ok mr.messages hroles
  by_cases hd : cfg.deploymentName = ""
  · simp [convertToAzureOpenAIRequest, hmsgs, hd]
  · refine iff_of_false ?_ hd
    intro h
    simp only [convertToAzureOpenAIRequest, hmsgs, if_neg hd] at h
    by_cases ht : mr.tools.length > 0
    · rw [if_pos ht] at h
      cases hc : convertTools mr.tools with
      | error e =>
        rw [hc] at h
        injection h with h2
        obtain ⟨c, hcc⟩ := convertTools_error_shape mr.tools e hc
        rw [hcc] at h2
        exact ConvError.noConfusion h2
      | ok tools =>
        rw [hc] at h
        exact Except.noConfusion h
    · rw [if_neg ht] at h
      exact Except.noConfusion h

/-- C1 witness: same user message, empty name fails with the missing-target
error, non-empty name does not. -/
theorem convertToAzureOpenAIRequest_missingTarget_iff_witness :
    convertToAzureOpenAIRequest
        { messages := [{ role := "user", content := [NewTextPart "hi"] }], tools := [] }
        { deploymentName := "" } =
      Except.error ConvError.missingTargetName ∧
    convertToAzureOpenAIRequest
        { messages := [{ role := "user", content := [NewTextPart "hi"] }], tools := [] }
        { deploymentName := "gpt-4o" } ≠
      Except.error ConvError.missingTargetName := by
  constructor
  · exact (convertToAzureOpenAIRequest_missingTarget_iff
      { messages := [{ role := "user", content := [NewTextPart "hi"] }], tools := [] }
      { deploymentName := "" } (by decide)).mpr rfl
  · intro h
    exact absurd ((convertToAzureOpenAIRequest_missingTarget_iff
      { messages := [{ role := "user", content := [NewTextPart "hi"] }], tools := [] }
      { deploymentName := "gpt-4o" } (by decide)).mp h) (by decide)

/-- C5: when the callback fails on a delta chunk, the streaming loop aborts
at once with the wrapped callback error: the result is the same for every
remaining stream content, and the accumulated buffer and trace are
discarded (no response is returned). -/
theorem streamLoop_callback_error_aborts (cb : Callback) (d e : String)
    (fro : Option String) (cs : List StreamChoice) (rest : List ReadItem)
    (buf fr : String) (trace : List ModelResponseChunk)
    (h : cb { content := [NewTextPart d], role := RoleModel } = some e) :
    streamLoop cb
        (Except.ok { choices :=
            { delta := { content := some d }, finishReason := fro } :: cs } :: rest)
        buf fr trace =
      Except.error (ConvError.streamCallbackFailed e) := by
  simp [streamLoop, processChoices, h]

/-- C5 witness: a concrete failing callback aborts a stream that still has
pending chunks, discarding the accumulated buffer. -/
theorem streamLoop_callback_error_aborts_witness :
    streamLoop (fun _ => some "boom")
        (Except.ok { choices := [{ delta := { content := some "x" } }] } ::
          [Except.ok { choices := [{ delta := { content := some "ignored" } }] }])
        "acc" "" [] =
      Except.error (ConvError.streamCallbackFailed "boom") :=
  streamLoop_callback_error_aborts (fun _ => some "boom") "x" "boom" none []
    [Except.ok { choices := [{ delta := { content := some "ignored" } }] }]
    "acc" "" [] rfl

/-- C6: the non-streaming dispatcher wraps a failed provider call, rejects
a zero-choice response, and otherwise returns the first choice's content as
a single model-role text part with the converted finish reason, defaulting
to stop when the provider sent none. -/
theorem handleNonStreamingRequest_cases :
    (∀ e : String,
        handleNonStreamingRequest (Except.error e) =
          Except.error (ConvError.providerCallFailed e)) ∧
    (handleNonStreamingRequest (Except.ok { choices := [] }) =
        Except.error ConvError.emptyProviderResponse) ∧
    (∀ (choice : ChatChoice) (rest : List ChatChoice),
        (choice.finishReason = none →
            handleNonStreamingRequest (Except.ok { choices := choice :: rest }) =
              Except.ok
                { message := { content := [NewTextPart (choice.message.content.getD "")],
                               role := RoleModel },
                  finishReason := FinishReasonStop }) ∧
        (∀ r : String, choice.finishReason = some r →
            handleNonStreamingRequest (Except.ok { choices := choice :: rest }) =
              Except.ok
                { message := { content := [NewTextPart (choice.message.content.getD "")],
                               role := RoleModel },
                  finishReason := convertFinishReason r })) := by
  refine ⟨fun e => rfl, rfl, fun choice rest => ⟨fun hn => ?_, fun r hr => ?_⟩⟩
  · cases hm : choice.message.content <;>
      simp [handleNonStreamingRequest, hn, hm]
  · cases hm : choice.message.content <;>
      simp [handleNonStreamingRequest, hr, hm]

/-- C6 witness: a concrete one-choice response with the stopped finish
reason, and one with no finish reason defaulting to stop. -/
theorem handleNonStreamingRequest_cases_witness :
    handleNonStreamingRequest
        (Except.ok { choices := [{ message := { content := some "Hi" },
                                   finishReason := some CompletionsFinishReasonStopped }] }) =
      Except.ok { message := { content := [NewTextPart "Hi"], role := RoleModel },
                  finishReason := FinishReasonStop } ∧
    handleNonStreamingRequest
        (Except.ok { choices := [{ message := { content := none } }] }) =
      Except.ok { message := { content := [NewTextPart ""], role := RoleModel },
                  finishReason := FinishReasonStop } := by
  constructor
  · have h := (handleNonStreamingRequest_cases.2.2
        { message := { content := some "Hi" },
          finishReason := some CompletionsFinishReasonStopped } []).2
        CompletionsFinishReasonStopped rfl
    rw [h]
    rfl
  · have h := (handleNonStreamingRequest_cases.2.2
        { message := { content := none }, finishReason := none } []).1 rfl
    rw [h]
    rfl

/-- C7: textless documents are skipped while documents with text contribute
their non-empty text fields joined by a single space; an empty resulting
input list fails with the no-embeddable-content error for every provider;
and on a successful call of a provider honoring the one-vector-per-input
contract the response holds exactly one embedding per embeddable input, in
provider order. -/
theorem defineEmbedder_spec (provider : List String → Except String (List Vec32))
    (docs : List Document) :
    (∀ doc : Document, docTextParts doc.content = [] →
        embedInput (doc :: docs) = embedInput docs) ∧
    (∀ doc : Document, docTextParts doc.content ≠ [] →
        embedInput (doc :: docs) =
          String.intercalate " " (docTextParts doc.content) :: embedInput docs) ∧
    (embedInput docs = [] →
        defineEmbedderFn provider docs = Except.error ConvError.noEmbeddableContent) ∧
    (∀ data : List Vec32, embedInput docs ≠ [] →
        provider (embedInput docs) = Except.ok data →
        data.length = (embedInput docs).length →
        defineEmbedderFn provider docs =
            Except.ok (data.map fun v => { embedding := v }) ∧
          (data.map fun v => ({ embedding := v } : Embedding)).length =
            (embedInput docs).length) := by
  refine ⟨fun doc h => ?_, fun doc h => ?_, fun h => ?_,
    fun data hne hp hlen => ⟨?_, ?_⟩⟩
  · simp [embedInput, h]
  · have hp' : (docTextParts doc.content).length > 0 := List.length_pos.mpr h
    simp [embedInput, List.filterMap_cons, hp']
  · simp [defineEmbedderFn, h]
  · simp [defineEmbedderFn, List.length_eq_zero, hne, hp]
  · simp [hlen]

/-- C7 witness: a document with two text parts next to a textless document
yields one space-joined input and one embedding; fully textless input fails
with the no-embeddable-content error without consulting the provider. -/
theorem defineEmbedder_spec_witness :
    defineEmbedderFn (fun _ => Except.ok [[{ bits := 7 }]])
        [{ content := [NewTextPart "hello", NewTextPart "world"] },
         { content := [] }] =
      Except.ok [{ embedding := [{ bits := 7 }] }] ∧
    defineEmbedderFn (fun _ => Except.error "never called")
        [{ content := [] }, { content := [{ kind := PartKind.text, text := "" }] }] =
      Except.error ConvError.noEmbeddableContent := by
  constructor
  · exact ((defineEmbedder_spec (fun _ => Except.ok [[{ bits := 7 }]])
      [{ content := [NewTextPart "hello", NewTextPart "world"] },
       { content := [] }]).2.2.2 [[{ bits := 7 }]]
      (by decide) rfl (by decide)).1
  · exact (defineEmbedder_spec (fun _ => Except.error "never called")
      [{ content := [] },
       { content := [{ kind := PartKind.text, text := "" }] }]).2.2.1 (by decide)

/-- C8: on success the tool converter returns one provider tool definition
per input tool, in order, carrying the tool's name, description and the
encoded bytes of its schema; when any schema fails to encode the whole call
fails with the schema-encoding error, returning no partial list. -/
theorem convertTools_spec (tools : List ToolDefinition) :
    (∀ out, convertTools tools = Except.ok out →
        out.length = tools.length ∧
        ∀ (i : Nat) (hi : i < tools.length) (ho : i < out.length),
          ∃ bytes, jsonMarshal (tools.get ⟨i, hi⟩).inputSchema = Except.ok bytes ∧
            out.get ⟨i, ho⟩ =
              { type := "function",
                function := { name := (tools.get ⟨i, hi⟩).name,
                              description := (tools.get ⟨i, hi⟩).description,
                              parameters := bytes } }) ∧
    ((∃ t ∈ tools, ∃ e, jsonMarshal t.inputSchema = Except.error e) →
        ∃ c, convertTools tools = Except.error (ConvError.schemaEncodingFailed c)) := by
  induction tools with
  | nil =>
    refine ⟨fun out h => ?_, fun hex => ?_⟩
    · injection h with h2
      subst h2
      exact ⟨rfl, fun i hi => absurd hi (by simp)⟩
    · obtain ⟨t, ht, _⟩ := hex
      exact absurd ht (List.not_mem_nil t)
  | cons t rest ih =>
    refine ⟨fun out h => ?_, fun hex => ?_⟩
    · simp only [convertTools] at h
      cases hm : jsonMarshal t.inputSchema with
      | error e =>
        rw [hm] at h
        exact Except.noConfusion h
      | ok bytes =>
        rw [hm] at h
        cases hr : convertTools rest with
        | error e =>
          rw [hr] at h
          exact Except.noConfusion h
        | ok others =>
          rw [hr] at h
          injection h with h2
          subst h2
          obtain ⟨hlen, hidx⟩ := ih.1 others hr
          refine ⟨by simp [hlen], fun i hi ho => ?_⟩
          cases i with
          | zero => exact ⟨bytes, hm, rfl⟩
          | succ j =>
            have hj : j < rest.length := by simpa using hi
            have hjo : j < others.length := by simpa using ho
            obtain ⟨b, hb1, hb2⟩ := hidx j hj hjo
            exact ⟨b, hb1, hb2⟩
    · obtain ⟨u, hu, e, he⟩ := hex
      cases hm : jsonMarshal t.inputSchema with
      | error c => exact ⟨c, by simp [convertTools, hm]⟩
      | ok bytes =>
        have hurest : u ∈ rest := by
          rcases List.mem_cons.mp hu with huh | h2
          · rw [huh] at he
            rw [hm] at he
            exact Except.noConfusion he
          · exact h2
        obtain ⟨c, hc⟩ := ih.2 ⟨u, hurest, e, he⟩
        exact ⟨c, by simp [convertTools, hm, hc]⟩

/-- C8 witness: one unencodable schema fails the whole conversion; one
encodable tool converts, with matching lengths. -/
theorem convertTools_spec_witness :
    (∃ c, convertTools [{ name := "t1", description := "d1",
                          inputSchema := SchemaDoc.unencodable "chan" }] =
        Except.error (ConvError.schemaEncodingFailed c)) ∧
    ([({ type := "function",
         function := { name := "t2", description := "d2", parameters := "sch" } } :
        FunctionToolDefinition)].length =
      [({ name := "t2", description := "d2",
          inputSchema := SchemaDoc.encodable "sch" } : ToolDefinition)].length) := by
  constructor
  · exact (convertTools_spec
      [{ name := "t1", description := "d1",
         inputSchema := SchemaDoc.unencodable "chan" }]).2
      ⟨{ name := "t1", description := "d1",
         inputSchema := SchemaDoc.unencodable "chan" },
       by simp, "chan", rfl⟩
  · exact ((convertTools_spec
      [{ name := "t2", description := "d2",
         inputSchema := SchemaDoc.encodable "sch" }]).1
      [{ type := "function",
         function := { name := "t2", description := "d2", parameters := "sch" } }]
      rfl).1

end AzPlugin
